import Mathlib

/-!
Verification of the OT commit-and-snapshot engine of
`apps/nestjs-backend/src/share-db/sqlite.adapter.ts` (class `SqliteDbAdapter`).

The adapter is embedded shallowly: the Prisma database becomes an explicit
`DbState` record of row lists, every adapter method becomes a pure function on
`DbState`, and a thrown JavaScript exception (caught by the adapter and passed
to its callback) becomes an `Except String` error.  JSON text columns that the
adapter only ever round-trips through `JSON.parse`/`JSON.stringify`
(`field.columnMeta`) are modelled structurally; the four view configuration
blobs, whose raw stored form (possibly NULL or empty) is observable, are
modelled as `Option String` together with an executable model of `JSON.parse`.

Collaborator services that live outside the provided sources
(`RecordService`, `FieldService`, `TableService`, `ViewService`, the
`@teable-group/core` enums and `OpBuilder`) are modelled from the spec; each
such definition carries a doc comment starting with `Modelled from the spec:`.
-/

/-- JavaScript JSON values.  Numeric literals are modelled as integers; the
adapter never computes with blob numerics, so fractional literals are outside
the model. -/
inductive JsValue where
  | null
  | bool (b : Bool)
  | num (n : Int)
  | str (s : String)
  | arr (xs : List JsValue)
  | obj (fields : List (String × JsValue))

/-- Lookup of a key in a JavaScript-object-like association list
(first match; JS objects never hold duplicate keys). -/
def lookupKey {β : Type} : List (String × β) → String → Option β
  | [], _ => none
  | (k, v) :: rest, key => if k = key then some v else lookupKey rest key

/-- JavaScript property assignment `m[key] = v` on an object modelled as an
association list: an existing key keeps its position and gets the new value,
a fresh key is appended. -/
def setKey {β : Type} : List (String × β) → String → β → List (String × β)
  | [], key, v => [(key, v)]
  | (k, w) :: rest, key, v =>
      if k = key then (k, v) :: rest else (k, w) :: setKey rest key v

/-- JSON whitespace characters. -/
def isJsonWs (c : Char) : Bool :=
  c = ' ' || c = '\n' || c = '\t' || c = '\r'

/-- Skip leading JSON whitespace. -/
def skipWs : List Char → List Char
  | [] => []
  | c :: rest => if isJsonWs c then skipWs rest else c :: rest

/-- Decimal digit value of a character. -/
def digitVal (c : Char) : Option Nat :=
  if '0' ≤ c ∧ c ≤ '9' then some (c.toNat - '0'.toNat) else none

/-- Hexadecimal digit value of a character. -/
def hexVal (c : Char) : Option Nat :=
  if '0' ≤ c ∧ c ≤ '9' then some (c.toNat - '0'.toNat)
  else if 'a' ≤ c ∧ c ≤ 'f' then some (c.toNat - 'a'.toNat + 10)
  else if 'A' ≤ c ∧ c ≤ 'F' then some (c.toNat - 'A'.toNat + 10)
  else none

/-- Translation of a JSON single-character escape. -/
def escChar (c : Char) : Option Char :=
  if c = '"' then some '"'
  else if c = '\\' then some '\\'
  else if c = '/' then some '/'
  else if c = 'n' then some '\n'
  else if c = 't' then some '\t'
  else if c = 'r' then some '\r'
  else if c = 'b' then some (Char.ofNat 8)
  else if c = 'f' then some (Char.ofNat 12)
  else none

/-- Body of a JSON string literal, after the opening quote; returns the decoded
characters and the remaining input. -/
def parseStrBody : List Char → Except String (List Char × List Char)
  | [] => .error "Unterminated string in JSON"
  | '\\' :: 'u' :: h1 :: h2 :: h3 :: h4 :: rest =>
      match hexVal h1, hexVal h2, hexVal h3, hexVal h4 with
      | some a, some b, some c, some d =>
          (match parseStrBody rest with
           | .ok (body, r) => .ok (Char.ofNat (((a * 16 + b) * 16 + c) * 16 + d) :: body, r)
           | .error e => .error e)
      | _, _, _, _ => .error "Bad Unicode escape in JSON"
  | '\\' :: e :: rest =>
      (match escChar e with
       | some ch =>
          (match parseStrBody rest with
           | .ok (body, r) => .ok (ch :: body, r)
           | .error er => .error er)
       | none => .error "Bad escaped character in JSON")
  | '"' :: rest => .ok ([], rest)
  | c :: rest =>
      (match parseStrBody rest with
       | .ok (body, r) => .ok (c :: body, r)
       | .error e => .error e)

/-- Run of decimal digits with an accumulator. -/
def parseDigits : List Char → Nat → (Nat × List Char)
  | [], acc => (acc, [])
  | c :: rest, acc =>
      match digitVal c with
      | some d => parseDigits rest (acc * 10 + d)
      | none => (acc, c :: rest)

/-- JSON numeric literal (integral part; see `JsValue`). -/
def parseNum : List Char → Except String (JsValue × List Char)
  | '-' :: c :: rest =>
      if (digitVal c).isSome then
        (match parseDigits (c :: rest) 0 with
         | (n, r) => .ok (.num (-(n : Int)), r))
      else .error "Unexpected token in JSON"
  | c :: rest =>
      if (digitVal c).isSome then
        (match parseDigits (c :: rest) 0 with
         | (n, r) => .ok (.num (n : Int), r))
      else .error "Unexpected token in JSON"
  | [] => .error "Unexpected end of JSON input"

/-- Parsing mode of the single-pass JSON reader: a value, the elements of an
array (after the opening bracket), or the members of an object (after the
opening curly bracket). -/
inductive PMode where
  | val
  | elems (acc : List JsValue)
  | members (acc : List (String × JsValue))

/-- Output of one JSON reader step. -/
inductive POut where
  | val (v : JsValue)
  | elems (vs : List JsValue)
  | members (ms : List (String × JsValue))

/-- One fuelled step of the JSON reader.  Fuel only bounds nesting and list
length; `jsonParse` supplies enough fuel for any input. -/
def parseStep : Nat → PMode → List Char → Except String (POut × List Char)
  | 0, _, _ => .error "JSON input too deeply nested"
  | n + 1, .val, cs =>
      (match skipWs cs with
       | [] => .error "Unexpected end of JSON input"
       | 'n' :: 'u' :: 'l' :: 'l' :: rest => .ok (.val .null, rest)
       | 't' :: 'r' :: 'u' :: 'e' :: rest => .ok (.val (.bool true), rest)
       | 'f' :: 'a' :: 'l' :: 's' :: 'e' :: rest => .ok (.val (.bool false), rest)
       | '"' :: rest =>
          (match parseStrBody rest with
           | .ok (body, r) => .ok (.val (.str (String.mk body)), r)
           | .error e => .error e)
       | '[' :: rest =>
          (match skipWs rest with
           | ']' :: r2 => .ok (.val (.arr []), r2)
           | r1 =>
              match parseStep n (.elems []) r1 with
              | .ok (.elems vs, r2) => .ok (.val (.arr vs), r2)
              | .ok (_, _) => .error "JSON reader invariant failure"
              | .error e => .error e)
       | '{' :: rest =>
          (match skipWs rest with
           | '}' :: r2 => .ok (.val (.obj []), r2)
           | r1 =>
              match parseStep n (.members []) r1 with
              | .ok (.members ms, r2) => .ok (.val (.obj ms), r2)
              | .ok (_, _) => .error "JSON reader invariant failure"
              | .error e => .error e)
       | cs1 =>
          match parseNum cs1 with
          | .ok (v, r) => .ok (.val v, r)
          | .error e => .error e)
  | n + 1, .elems acc, cs =>
      (match parseStep n .val cs with
       | .ok (.val v, r1) =>
          (match skipWs r1 with
           | ',' :: r2 => parseStep n (.elems (acc ++ [v])) r2
           | ']' :: r2 => .ok (.elems (acc ++ [v]), r2)
           | _ => .error "Expected comma or closing bracket in JSON")
       | .ok (_, _) => .error "JSON reader invariant failure"
       | .error e => .error e)
  | n + 1, .members acc, cs =>
      (match skipWs cs with
       | '"' :: rest =>
          (match parseStrBody rest with
           | .ok (keyChars, r1) =>
              (match skipWs r1 with
               | ':' :: r2 =>
                  (match parseStep n .val r2 with
                   | .ok (.val v, r3) =>
                      (match skipWs r3 with
                       | ',' :: r4 => parseStep n (.members (setKey acc (String.mk keyChars) v)) r4
                       | '}' :: r4 => .ok (.members (setKey acc (String.mk keyChars) v), r4)
                       | _ => .error "Expected comma or closing brace in JSON")
                   | .ok (_, _) => .error "JSON reader invariant failure"
                   | .error e => .error e)
               | _ => .error "Expected colon in JSON")
           | .error e => .error e)
       | _ => .error "Expected string key in JSON")

/-- Model of JavaScript `JSON.parse` on a string: parse one value surrounded by
whitespace, requiring the whole input to be consumed.  In particular
`jsonParse ""` fails with the usual `Unexpected end of JSON input`. -/
def jsonParse (s : String) : Except String JsValue :=
  match parseStep (2 * s.length + 4) .val s.toList with
  | .error e => .error e
  | .ok (.val v, rest) =>
      if skipWs rest = [] then .ok v
      else .error "Unexpected non-whitespace character after JSON"
  | .ok (_, _) => .error "JSON reader invariant failure"

example : jsonParse "" = .error "Unexpected end of JSON input" := rfl
example : jsonParse "null" = .ok .null := rfl
example : jsonParse " [1, \x7b\"a\": true\x7d ] " =
    .ok (.arr [.num 1, .obj [("a", .bool true)]]) := rfl

/-- Nested per-view field metadata: `columnMeta` keyed first by view id, then by
arbitrary string keys.  The adapter always writes this column as
`JSON.stringify` of such an object and reads it back with `JSON.parse`, so the
column is modelled structurally. -/
abbrev ColumnMeta := List (String × List (String × JsValue))

/-- Modelled from the spec: the `IdPrefix` enum of `@teable-group/core` (not
under src/) encodes the document family in a fixed-width 3-character
identifier prefix; one distinct prefix per family. -/
def pfxTable : String := "tbl"

/-- Modelled from the spec: `IdPrefix.Field`. -/
def pfxField : String := "fld"

/-- Modelled from the spec: `IdPrefix.View`. -/
def pfxView : String := "viw"

/-- Modelled from the spec: `IdPrefix.Record`. -/
def pfxRecord : String := "rec"

/-- Modelled from the spec: `IdPrefix.Aggregate`. -/
def pfxAggregate : String := "agg"

/-- Modelled from the spec: `OpName.SetRecordOrder` of `@teable-group/core`. -/
def opNameSetRecordOrder : String := "setRecordOrder"

/-- Modelled from the spec: `OpName.SetRecord`. -/
def opNameSetRecord : String := "setRecord"

/-- Modelled from the spec: `OpName.SetColumnMeta`. -/
def opNameSetColumnMeta : String := "setColumnMeta"

/-- Modelled from the spec: `OpName.AddColumnMeta`. -/
def opNameAddColumnMeta : String := "addColumnMeta"

/-- Modelled from the spec: `OpName.SetFieldName`. -/
def opNameSetFieldName : String := "setFieldName"

/-- Modelled from the spec: `AggregateKey.RowCount` of `@teable-group/core`;
spec section 8 shows the synthetic id `RowCount_<viewId>`. -/
def aggKeyRowCount : String := "RowCount"

/-- Modelled from the spec: `AggregateKey.Average`. -/
def aggKeyAverage : String := "Average"

/-- Row of the append-only `ops` operation-log table.  The serialized
`operation` column (`JSON.stringify(rawOp)`) is modelled by storing the raw
operation itself; the adapter only round-trips it through `JSON.parse`. -/
structure OpsRow (op : Type) where
  docId : String
  collection : String
  version : Nat
  operation : op

/-- Row of the Prisma `field` table. -/
structure FieldRow where
  id : String
  tableId : String
  name : String
  type : String
  options : Option String
  version : Nat
  columnMeta : ColumnMeta

/-- Row of the Prisma `view` table.  The four configuration blobs and the
description are nullable text columns. -/
structure ViewRow where
  id : String
  tableId : String
  name : String
  type : String
  description : Option String
  filter : Option String
  sort : Option String
  group : Option String
  options : Option String
  order : Int
  version : Nat

/-- Row of the per-table record storage, as far as the adapter observes it
through `RecordService`. -/
structure RecordRow where
  id : String
  tableId : String
  version : Nat
  fields : List (String × JsValue)
  recordOrder : List (String × Int)

/-- Row of the table-schema storage managed by `TableService`. -/
structure TableRow where
  id : String
  name : String
  version : Nat

/-- Mutation descriptor of an edit operation, after decomposition
(`ISetRecordOrderOpContext`, `ISetRecordOpContext`, `ISetColumnMetaOpContext`,
`IAddColumnMetaOpContext`, `ISetFieldNameOpContext`). -/
inductive OpContext where
  | setRecordOrder (viewId : String) (newOrder : Int)
  | setRecord (fieldId : String) (newCellValue : JsValue)
  | setColumnMeta (viewId : String) (metaKey : String) (newMetaValue : JsValue)
  | addColumnMeta (viewId : String) (newMetaValue : List (String × JsValue))
  | setFieldName (newName : String)

/-- Name tag of a mutation descriptor (its `name` property, an `OpName`). -/
def ctxName : OpContext → String
  | .setRecordOrder _ _ => opNameSetRecordOrder
  | .setRecord _ _ => opNameSetRecord
  | .setColumnMeta _ _ _ => opNameSetColumnMeta
  | .addColumnMeta _ _ => opNameAddColumnMeta
  | .setFieldName _ => opNameSetFieldName

/-- Creation payload of a create operation (`rawOp.create.data`), which the
adapter casts to the family-specific snapshot type.  `ITableSnapshot` /
`IFieldSnapshot` / `IViewSnapshot` payloads are modelled with the attributes
the creation services consume; `addRecord` ignores the payload entirely. -/
inductive SnapshotPayload where
  | table (id : String) (name : String)
  | field (id : String) (name : String) (ftype : String) (options : Option String)
      (columnMeta : ColumnMeta)
  | view (id : String) (name : String) (vtype : String) (description : Option String)
      (filter : Option String) (sort : Option String) (group : Option String)
      (options : Option String) (order : Int)
  | raw (v : JsValue)

/-- Creation part of a ShareDB raw operation (`rawOp.create`). -/
structure CreateData where
  type : Option String
  data : SnapshotPayload

/-- ShareDB raw operation (`CreateOp | DeleteOp | EditOp`): `create` is present
on creates, `del` is `true` on deletes, `op` (the descriptor list, after
`OpBuilder.ops2Contexts`) is present on edits.

Modelled from the spec: `OpBuilder.ops2Contexts` of `@teable-group/core` (not
under src/) decomposes each raw json0 operation into exactly one mutation
descriptor; the edit payload is therefore modelled as the already-decomposed
descriptor list and `ops2Contexts` as the identity. -/
structure RawOp where
  create : Option CreateData
  del : Bool
  op : Option (List OpContext)

/-- Database state visible to the adapter: the operation log plus the four
per-family document tables. -/
structure DbState where
  ops : List (OpsRow RawOp)
  tables : List TableRow
  fields : List FieldRow
  views : List ViewRow
  records : List RecordRow

/-- The empty database. -/
def emptyState : DbState :=
  { ops := [], tables := [], fields := [], views := [], records := [] }

/-- Maximum logged version for `(collection, docId)`
(`prisma.ops.aggregate({_max: {version: true}, where: ...})`, with
`|| 0` when no row matches). -/
def maxLoggedVersion (s : DbState) (collection docId : String) : Nat :=
  (s.ops.filter (fun r => r.collection == collection && r.docId == docId)).foldr
    (fun r acc => max r.version acc) 0

/-- Modelled from the spec: `RecordService.getDbTableName` (not under src/)
resolves the physical table name of a collection; a pure storage detail the
adapter threads through to the record collaborators, modelled as the
collection id itself. -/
def getDbTableName (collection : String) : String := collection

/-- Modelled from the spec: `RecordService.setRecordOrder` (not under src/)
rewrites the record's position value for one `viewId` to `newOrder` and stamps
the new version. -/
def recordSetRecordOrder (version : Nat) (recordId : String) (_dbTableName : String)
    (viewId : String) (newOrder : Int) (s : DbState) : Except String DbState :=
  .ok { s with records := s.records.map (fun r =>
    if r.id == recordId then
      { r with recordOrder := setKey r.recordOrder viewId newOrder, version := version }
    else r) }

/-- Modelled from the spec: `RecordService.setRecord` (not under src/) applies
cell-level mutations from the raw context list (opaque to the adapter beyond
routing) and stamps the new version. -/
def recordSetRecord (version : Nat) (recordId : String) (_dbTableName : String)
    (contexts : List (String × JsValue)) (s : DbState) : Except String DbState :=
  .ok { s with records := s.records.map (fun r =>
    if r.id == recordId then
      { r with
        fields := contexts.foldl (fun fs kv => setKey fs kv.1 kv.2) r.fields,
        version := version }
    else r) }

/-- Modelled from the spec: `TableService.addTable` (not under src/) inserts a
new schema row keyed by the supplied id; creation is rejected with an error if
the id already exists. -/
def addTable (tid tname : String) (s : DbState) : Except String DbState :=
  if s.tables.any (fun t => t.id == tid) then .error "table already exists"
  else .ok { s with tables := s.tables ++ [{ id := tid, name := tname, version := 1 }] }

/-- Modelled from the spec: `FieldService.addField` (not under src/) inserts a
new field row from the initial snapshot payload; creation is rejected with an
error if the id already exists. -/
def addField (tableId : String) (fid fname ftype : String) (foptions : Option String)
    (meta : ColumnMeta) (s : DbState) : Except String DbState :=
  if s.fields.any (fun f => f.id == fid) then .error "field already exists"
  else .ok { s with fields := s.fields ++
    [{ id := fid, tableId := tableId, name := fname, type := ftype, options := foptions,
       version := 1, columnMeta := meta }] }

/-- Modelled from the spec: `ViewService.addView` (not under src/) inserts a
new view row from the initial snapshot payload; creation is rejected with an
error if the id already exists. -/
def addView (tableId : String) (vid vname vtype : String) (vdescription : Option String)
    (vfilter vsort vgroup voptions : Option String) (vorder : Int)
    (s : DbState) : Except String DbState :=
  if s.views.any (fun v => v.id == vid) then .error "view already exists"
  else .ok { s with views := s.views ++
    [{ id := vid, tableId := tableId, name := vname, type := vtype,
       description := vdescription, filter := vfilter, sort := vsort, group := vgroup,
       options := voptions, order := vorder, version := 1 }] }

/-- Modelled from the spec: `RecordService.addRecord` (not under src/) inserts
a new record row keyed by the supplied id; creation is rejected with an error
if the id already exists. -/
def addRecord (tableId recordId : String) (s : DbState) : Except String DbState :=
  if s.records.any (fun r => r.id == recordId) then .error "record already exists"
  else .ok { s with records := s.records ++
    [{ id := recordId, tableId := tableId, version := 1, fields := [], recordOrder := [] }] }

/-- Sequential application of a per-context step, stopping at the first error
(the shape of every `for (const context of contexts)` applier loop). -/
def eachCtx {γ : Type} (step : γ → DbState → Except String DbState) :
    List γ → DbState → Except String DbState
  | [], s => .ok s
  | c :: rest, s =>
      match step c s with
      | .ok s1 => eachCtx step rest s1
      | .error e => .error e

/-- One `ISetColumnMetaOpContext` of `setColumnMeta`: read the field's nested
`columnMeta` (`findUniqueOrThrow`), set `columnMeta[viewId][metaKey] =
newMetaValue` (a TypeError when `columnMeta[viewId]` is undefined), write the
object back and stamp the version. -/
def setColumnMetaOne (version : Nat) (fieldId : String)
    (viewId metaKey : String) (newMetaValue : JsValue) (s : DbState) :
    Except String DbState :=
  match s.fields.find? (fun f => f.id == fieldId) with
  | none => .error "No Field found"
  | some fieldData =>
    match lookupKey fieldData.columnMeta viewId with
    | none => .error "TypeError: Cannot set properties of undefined"
    | some inner =>
      let newMeta := setKey fieldData.columnMeta viewId (setKey inner metaKey newMetaValue)
      .ok { s with fields := s.fields.map (fun g =>
        if g.id == fieldId then { g with columnMeta := newMeta, version := version } else g) }

/-- The `setColumnMeta` applier: the per-context loop over `setColumnMetaOne`. -/
def setColumnMeta (version : Nat) (fieldId : String)
    (contexts : List (String × String × JsValue)) (s : DbState) :
    Except String DbState :=
  eachCtx (fun c s1 => setColumnMetaOne version fieldId c.1 c.2.1 c.2.2 s1) contexts s

/-- One `IAddColumnMetaOpContext` of `addColumnMeta`: read the field's nested
`columnMeta`, assign every `[key, value]` of `newMetaValue` into
`columnMeta[viewId]` (a TypeError on the first assignment when
`columnMeta[viewId]` is undefined), write back and stamp the version. -/
def addColumnMetaOne (version : Nat) (fieldId : String)
    (viewId : String) (newMetaValue : List (String × JsValue)) (s : DbState) :
    Except String DbState :=
  match s.fields.find? (fun f => f.id == fieldId) with
  | none => .error "No Field found"
  | some fieldData =>
    match newMetaValue with
    | [] =>
      .ok { s with fields := s.fields.map (fun g =>
        if g.id == fieldId then { g with version := version } else g) }
    | _ =>
      match lookupKey fieldData.columnMeta viewId with
      | none => .error "TypeError: Cannot set properties of undefined"
      | some inner =>
        let newInner := newMetaValue.foldl (fun acc kv => setKey acc kv.1 kv.2) inner
        let newMeta := setKey fieldData.columnMeta viewId newInner
        .ok { s with fields := s.fields.map (fun g =>
          if g.id == fieldId then { g with columnMeta := newMeta, version := version } else g) }

/-- The `addColumnMeta` applier: the per-context loop over `addColumnMetaOne`. -/
def addColumnMeta (version : Nat) (fieldId : String)
    (contexts : List (String × List (String × JsValue))) (s : DbState) :
    Except String DbState :=
  eachCtx (fun c s1 => addColumnMetaOne version fieldId c.1 c.2 s1) contexts s

/-- The `setFieldName` applier: for each context, update the field's `name`
attribute and stamp the version. -/
def setFieldName (version : Nat) (fieldId : String)
    (contexts : List String) (s : DbState) : Except String DbState :=
  eachCtx (fun newName s1 =>
    .ok { s1 with fields := s1.fields.map (fun g =>
      if g.id == fieldId then { g with name := newName, version := version } else g) })
    contexts s

/-- The `setRecordOrder` applier: the per-context loop delegating to
`RecordService.setRecordOrder`. -/
def setRecordOrder (version : Nat) (recordId dbTableName : String)
    (contexts : List (String × Int)) (s : DbState) : Except String DbState :=
  eachCtx (fun c s1 => recordSetRecordOrder version recordId dbTableName c.1 c.2 s1)
    contexts s

/-- The `setRecords` applier: a single delegation to `RecordService.setRecord`
with the raw context list. -/
def setRecords (version : Nat) (recordId dbTableName : String)
    (contexts : List (String × JsValue)) (s : DbState) : Except String DbState :=
  recordSetRecord version recordId dbTableName contexts s

/-- The `createSnapshot` dispatcher: classify `docId.slice(0, 3)` and invoke
the family-specific creation service with the payload cast to that family's
snapshot type (the unchecked TypeScript casts are modelled as payload-shape
checks).  The source's `default: break;` silently does nothing for an
unrecognised prefix, so the model returns the state unchanged there. -/
def createSnapshot (collection docId : String) (payload : SnapshotPayload)
    (s : DbState) : Except String DbState :=
  if docId.take 3 = pfxTable then
    match payload with
    | .table tid tname => addTable tid tname s
    | _ => .error "invalid table snapshot payload"
  else if docId.take 3 = pfxRecord then
    addRecord collection docId s
  else if docId.take 3 = pfxField then
    match payload with
    | .field fid fname ftype fopts meta => addField collection fid fname ftype fopts meta s
    | _ => .error "invalid field snapshot payload"
  else if docId.take 3 = pfxView then
    match payload with
    | .view vid vname vtype vdesc vf vs vg vo vord =>
        addView collection vid vname vtype vdesc vf vs vg vo vord s
    | _ => .error "invalid view snapshot payload"
  else
    .ok s

/-- Append a key to a key list unless already present (the key order produced
by lodash `groupBy`: first occurrence). -/
def insertKeyName (ks : List String) (k : String) : List String :=
  if k ∈ ks then ks else ks ++ [k]

/-- Group keys of a descriptor list in first-occurrence order, as iterating a
lodash `groupBy` result with `for ... in` does. -/
def groupKeys (ctxs : List OpContext) : List String :=
  ctxs.foldl (fun ks c => insertKeyName ks (ctxName c)) []

/-- Downcast of a descriptor to `ISetRecordOrderOpContext`. -/
def asSetRecordOrder : OpContext → Option (String × Int)
  | .setRecordOrder v o => some (v, o)
  | _ => none

/-- Downcast of a descriptor to `ISetRecordOpContext`. -/
def asSetRecord : OpContext → Option (String × JsValue)
  | .setRecord f v => some (f, v)
  | _ => none

/-- Downcast of a descriptor to `ISetColumnMetaOpContext`. -/
def asSetColumnMeta : OpContext → Option (String × String × JsValue)
  | .setColumnMeta v k nv => some (v, k, nv)
  | _ => none

/-- Downcast of a descriptor to `IAddColumnMetaOpContext`. -/
def asAddColumnMeta : OpContext → Option (String × List (String × JsValue))
  | .addColumnMeta v nv => some (v, nv)
  | _ => none

/-- Downcast of a descriptor to `ISetFieldNameOpContext`. -/
def asSetFieldName : OpContext → Option String
  | .setFieldName n => some n
  | _ => none

/-- One iteration of `updateSnapshot`'s `switch (opName)`: apply the group of
descriptors named `opName` through the matching applier, or fail with the
source's `save method did not implement` error for an unknown name. -/
def applyGroup (version : Nat) (docId dbTableName : String) (ctxs : List OpContext)
    (opName : String) (s : DbState) : Except String DbState :=
  let opContexts := ctxs.filter (fun c => ctxName c == opName)
  if opName = opNameSetRecordOrder then
    setRecordOrder version docId dbTableName (opContexts.filterMap asSetRecordOrder) s
  else if opName = opNameSetRecord then
    setRecords version docId dbTableName (opContexts.filterMap asSetRecord) s
  else if opName = opNameSetColumnMeta then
    setColumnMeta version docId (opContexts.filterMap asSetColumnMeta) s
  else if opName = opNameAddColumnMeta then
    addColumnMeta version docId (opContexts.filterMap asAddColumnMeta) s
  else if opName = opNameSetFieldName then
    setFieldName version docId (opContexts.filterMap asSetFieldName) s
  else .error ("op name " ++ opName ++ " save method did not implement")

/-- The `updateSnapshot` applier dispatcher: resolve the physical table name,
decompose the edit payload into descriptors (`OpBuilder.ops2Contexts`,
modelled as the identity — see `RawOp`), group them by name and run each
group's applier in group-key order. -/
def updateSnapshot (version : Nat) (collection docId : String)
    (ops : List OpContext) (s : DbState) : Except String DbState :=
  let dbTableName := getDbTableName collection
  eachCtx (fun n s1 => applyGroup version docId dbTableName ops n s1) (groupKeys ops) s

/-- The applier phase of `commit`, after the version gate and the op-log
append: run the family creation applier when `rawOp.create` is present, then
the edit applier when `rawOp.op` is present. -/
def commitApply (collection id : String) (rawOp : RawOp) (snapshotV : Nat)
    (s1 : DbState) : Except String DbState :=
  let afterCreate : Except String DbState :=
    match rawOp.create with
    | some c => createSnapshot collection id c.data s1
    | none => .ok s1
  match afterCreate with
  | .error e => .error e
  | .ok s2 =>
    match rawOp.op with
    | some ops => updateSnapshot snapshotV collection id ops s2
    | none => .ok s2

/-- The `commit` coordinator: read `maxLoggedVersion`, reject a declared
version other than `maxLoggedVersion + 1` with the `version mismatch` error
before performing any write, otherwise append the op-log row and run the
appliers.  Returns the error passed to the callback (if any) together with the
resulting database state; every write inside `commit` runs in the caller's
ambient transaction, which is rolled back when the callback receives an error,
so error outcomes pair with the original state. -/
def commit (collection id : String) (rawOp : RawOp) (snapshotV : Nat)
    (s : DbState) : Option String × DbState :=
  if snapshotV ≠ maxLoggedVersion s collection id + 1 then
    (some ("version mismatch: maxVersion: " ++ toString (maxLoggedVersion s collection id) ++
      " snapshotV: " ++ toString snapshotV), s)
  else
    match commitApply collection id rawOp snapshotV
        { s with ops := s.ops ++ [⟨id, collection, snapshotV, rawOp⟩] } with
    | .ok s3 => (none, s3)
    | .error e => (some e, s)

/-- The `skipPoll` predicate: `true` means an operation cannot affect a
query's results.  `if (op.create || op.del) return false; return !op.op;`
(note `![]` is `false` in JavaScript, so an edit with an empty descriptor
array does not skip polling; only a missing `op` field does). -/
def skipPoll (_collection _id : String) (op : RawOp) : Bool :=
  if op.create.isSome || op.del then false else op.op.isNone

/-- Record field projection: `{ [fieldKey: string]: boolean }`. -/
abbrev IProjection := List (String × Bool)

/-- Keep only the cells whose field key is truthy in the projection; no
projection keeps everything. -/
def applyProjection (projection : Option IProjection) (cells : List (String × JsValue)) :
    List (String × JsValue) :=
  match projection with
  | none => cells
  | some p => cells.filter (fun kv => (lookupKey p kv.1).getD false)

/-- Modelled from the spec: `createFieldInstanceByRaw` plus `instanceToPlain`
(field model factory, not under src/) re-derive a typed field value object
from the raw stored attributes; modelled as projecting the row's typed
attributes. -/
structure FieldVoModel where
  id : String
  name : String
  type : String
  options : Option String

/-- Raw field row to its typed value object. -/
def fieldRowToVo (f : FieldRow) : FieldVoModel :=
  { id := f.id, name := f.name, type := f.type, options := f.options }

/-- The view object inside a view snapshot: the spread of the raw row with
`type` cast, `description` coalesced (`view.description || undefined`) and the
four configuration blobs replaced by their parsed forms. -/
structure ViewSnapModel where
  id : String
  tableId : String
  name : String
  type : String
  description : Option String
  filter : JsValue
  sort : JsValue
  group : JsValue
  options : JsValue
  order : Int
  version : Nat

/-- Family-specific snapshot payload (`data` of `ISnapshotBase`). -/
inductive SnapData where
  | record (cells : List (String × JsValue)) (recordOrder : List (String × Int))
  | field (field : FieldVoModel) (columnMeta : ColumnMeta)
  | view (view : ViewSnapModel) (order : Int)
  | aggregate (n : Nat)

/-- Intermediate bulk-read result (`ISnapshotBase`). -/
structure SnapshotBase where
  id : String
  v : Nat
  type : String
  data : SnapData

/-- The ShareDB `Snapshot` class; placeholders for never-created documents are
`new Snapshot(id, 0, null, undefined, null)`. -/
structure Snapshot where
  id : String
  v : Nat
  type : Option String
  data : Option SnapData
  m : Option Unit

/-- JavaScript `Array.prototype.indexOf` (`-1` when absent), as used by the
bulk-read ordering comparators. -/
def jsIdx (ids : List String) (x : String) : Int :=
  if x ∈ ids then (List.indexOf x ids : Int) else -1

/-- Modelled from the spec: `RecordService.getRecordSnapshotBulk` (not under
src/) bulk-reads record rows and shapes them into record snapshots, preserving
the caller-supplied id order, honouring the optional field projection (subset
of fields to include) and omitting ids that have no stored row. -/
def getRecordSnapshotBulk (s : DbState) (tableId : String) (recordIds : List String)
    (projection : Option IProjection) : List SnapshotBase :=
  recordIds.filterMap (fun rid =>
    (s.records.find? (fun r => r.id == rid && r.tableId == tableId)).map (fun r =>
      { id := r.id, v := r.version, type := "json0",
        data := .record (applyProjection projection r.fields) r.recordOrder }))

/-- The `getFieldSnapshotBulk` reconstructor: `findMany` the rows whose id is
in `fieldIds` (in whatever order storage returns them — modelled by the row
order of the `fields` table), shape each row, then
`.sort((a, b) => fieldIds.indexOf(a.id) - fieldIds.indexOf(b.id))` — a stable
comparator sort, modelled as a stable insertion sort on the comparator's
`≤`. -/
def getFieldSnapshotBulk (s : DbState) (tableId : String) (fieldIds : List String) :
    List SnapshotBase :=
  List.insertionSort (fun a b => jsIdx fieldIds a.id ≤ jsIdx fieldIds b.id)
    ((s.fields.filter (fun f => f.tableId == tableId && fieldIds.contains f.id)).map
      (fun f => { id := f.id, v := f.version, type := "json0",
                  data := SnapData.field (fieldRowToVo f) f.columnMeta }))

/-- Model of `JSON.parse(column)` on a nullable text column: JavaScript
coerces the non-string argument `null` to the string `"null"`, which parses to
JSON null. -/
def jsonParseColumn : Option String → Except String JsValue
  | none => jsonParse "null"
  | some str => jsonParse str

/-- JavaScript `view.description || undefined`: an empty string is falsy and
becomes undefined. -/
def jsTruthyOrUndefined : Option String → Option String
  | none => none
  | some d => if d = "" then none else some d

/-- The view-snapshot object literal of `getViewSnapshotBulk`: the raw row
spread with `type` cast, `description` coalesced (`view.description ||
undefined`) and the four configuration blobs replaced by their parsed
values. -/
def viewSnapshotObject (view : ViewRow) (fv sv gv ov : JsValue) : SnapshotBase :=
  { id := view.id
    v := view.version
    type := "json0"
    data := SnapData.view
      { id := view.id
        tableId := view.tableId
        name := view.name
        type := view.type
        description := jsTruthyOrUndefined view.description
        filter := fv
        sort := sv
        group := gv
        options := ov
        order := view.order
        version := view.version }
      view.order }

/-- Shape one view row into its snapshot, parsing the four independently
stored configuration blobs in literal order (filter, sort, group, options);
the first parse failure aborts the reconstruction. -/
def viewRowToSnapshot (view : ViewRow) : Except String SnapshotBase :=
  match jsonParseColumn view.filter with
  | .error e => .error e
  | .ok fv =>
    match jsonParseColumn view.sort with
    | .error e => .error e
    | .ok sv =>
      match jsonParseColumn view.group with
      | .error e => .error e
      | .ok gv =>
        match jsonParseColumn view.options with
        | .error e => .error e
        | .ok ov => .ok (viewSnapshotObject view fv sv gv ov)

/-- The per-row mapping loop of `getViewSnapshotBulk` (`views.map(...)` where
any row's blob parse may throw, aborting the whole reconstruction). -/
def mapViewRows : List ViewRow → Except String (List SnapshotBase)
  | [] => .ok []
  | row :: rest =>
      match viewRowToSnapshot row with
      | .error e => .error e
      | .ok sb =>
          match mapViewRows rest with
          | .error e => .error e
          | .ok tail => .ok (sb :: tail)

/-- The `getViewSnapshotBulk` reconstructor: `findMany`, shape each row
(possibly failing on a blob parse), then sort by the caller's id order as in
`getFieldSnapshotBulk`. -/
def getViewSnapshotBulk (s : DbState) (tableId : String) (viewIds : List String) :
    Except String (List SnapshotBase) :=
  match mapViewRows
      (s.views.filter (fun v => v.tableId == tableId && viewIds.contains v.id)) with
  | .error e => .error e
  | .ok snaps =>
      .ok (List.insertionSort (fun a b => jsIdx viewIds a.id ≤ jsIdx viewIds b.id) snaps)

/-- Character-level worker of `jsSplit`. -/
def splitChars (sep : Char) : List Char → List (List Char)
  | [] => [[]]
  | c :: rest =>
      if c = sep then [] :: splitChars sep rest
      else
        match splitChars sep rest with
        | [] => [[c]]
        | seg :: segs => (c :: seg) :: segs

/-- JavaScript `String.prototype.split` with a one-character separator, as in
`id.split('_')` (`"".split('_')` is `[""]`). -/
def jsSplit (sep : Char) (s : String) : List String :=
  (splitChars sep s.toList).map String.mk

/-- One aggregate id of `getAggregateBulk`: destructure
`const [aggregateKey, viewId] = id.split('_')` and dispatch on the key —
`RowCount` computes the row count, every other key throws
`aggregate <key> not implemented`.

Modelled from the spec: `RecordService.getRowCount` (not under src/) is the
row-count collaborator, abstracted as the function argument `rowCountFn`
applied to the table id and the parsed view id. -/
def aggregateOne (rowCountFn : String → Option String → Nat) (tableId aggId : String) :
    Except String Nat :=
  if (jsSplit '_' aggId).headD "" = aggKeyRowCount then
    .ok (rowCountFn tableId (jsSplit '_' aggId)[1]?)
  else if (jsSplit '_' aggId).headD "" = aggKeyAverage then
    .error ("aggregate " ++ (jsSplit '_' aggId).headD "" ++ " not implemented")
  else .error ("aggregate " ++ (jsSplit '_' aggId).headD "" ++ " not implemented")

/-- The `getAggregateBulk` reconstructor: compute each id's aggregate in
order (the first failure aborts), then pair results with their ids. -/
def getAggregateBulk (rowCountFn : String → Option String → Nat) (tableId : String) :
    List String → Except String (List SnapshotBase)
  | [] => .ok []
  | aggId :: rest =>
      match aggregateOne rowCountFn tableId aggId with
      | .error e => .error e
      | .ok n =>
          match getAggregateBulk rowCountFn tableId rest with
          | .error e => .error e
          | .ok tail =>
              .ok ({ id := aggId, v := 1, type := "json0", data := .aggregate n } :: tail)

/-- The record-branch projection guard of `getSnapshotBulk`:
`projection && projection['$submit'] ? undefined : projection` (an object is
truthy, a boolean property is truthy exactly when `true`). -/
def submitProjection (projection : Option IProjection) : Option IProjection :=
  match projection with
  | some p => if (lookupKey p "$submit").getD false then none else some p
  | none => none

/-- Placeholder snapshot for a never-created document:
`new Snapshot(id, 0, null, undefined, null)`. -/
def placeholderSnapshot (docId : String) : Snapshot :=
  { id := docId, v := 0, type := none, data := none, m := none }

/-- The `switch (docType)` of `getSnapshotBulk`: produce the family branch's
`snapshotData` (the record branch threads the `$submit`-guarded projection;
the `default: break;` leaves `snapshotData` empty). -/
def familySnapshotData (rowCountFn : String → Option String → Nat) (s : DbState)
    (collection : String) (ids : List String) (projection : Option IProjection)
    (docType : String) : Except String (List SnapshotBase) :=
  if docType = pfxRecord then
    .ok (getRecordSnapshotBulk s collection ids (submitProjection projection))
  else if docType = pfxField then
    .ok (getFieldSnapshotBulk s collection ids)
  else if docType = pfxView then
    getViewSnapshotBulk s collection ids
  else if docType = pfxAggregate then
    getAggregateBulk rowCountFn collection ids
  else .ok []

/-- The `getSnapshotBulk` dispatcher.  `ids[0].slice(0, 3)` throws a TypeError
on an empty id list; a non-empty id whose prefix differs from the first id's
prefix is rejected (`find` returning an empty string is falsy and slips
through, as in the source); the family branch runs, and when it produces no
rows every requested id becomes a zero-version placeholder. -/
def getSnapshotBulk (rowCountFn : String → Option String → Nat) (s : DbState)
    (collection : String) (ids : List String) (projection : Option IProjection) :
    Except String (List Snapshot) :=
  match ids with
  | [] => .error "TypeError: Cannot read properties of undefined"
  | id0 :: rest =>
    if (((id0 :: rest).find? (fun x => !(x.take 3 == id0.take 3))).getD "") = "" then
      match familySnapshotData rowCountFn s collection (id0 :: rest) projection
          (id0.take 3) with
      | .error e => .error e
      | .ok sd =>
          if sd.length ≠ 0 then
            .ok (sd.map (fun sb =>
              { id := sb.id, v := sb.v, type := some sb.type, data := some sb.data, m := none }))
          else
            .ok ((id0 :: rest).map placeholderSnapshot)
    else .error "get snapshot bulk ids must be same type"

/-- The `getSnapshot` wrapper: delegate to `getSnapshotBulk` with a singleton
id list and return `data![0]` (an index access that would be undefined on an
empty result, hence the `Option`). -/
def getSnapshot (rowCountFn : String → Option String → Nat) (s : DbState)
    (collection docId : String) (projection : Option IProjection) :
    Except String (Option Snapshot) :=
  match getSnapshotBulk rowCountFn s collection [docId] projection with
  | .error e => .error e
  | .ok data => .ok data.head?

/-!
Helper lemmas: no applier touches the operation log; only the op-log append
inside `commit` does.
-/

theorem eachCtx_ops {γ : Type} (step : γ → DbState → Except String DbState)
    (hstep : ∀ c s s', step c s = .ok s' → s'.ops = s.ops) :
    ∀ (l : List γ) (s s' : DbState), eachCtx step l s = .ok s' → s'.ops = s.ops
  | [], s, s', h => by
      unfold eachCtx at h
      cases h
      rfl
  | c :: rest, s, s', h => by
      unfold eachCtx at h
      cases hc : step c s with
      | error e => rw [hc] at h; cases h
      | ok s1 =>
        rw [hc] at h
        rw [eachCtx_ops step hstep rest s1 s' h, hstep c s s1 hc]

theorem setColumnMetaOne_ops (version : Nat) (fieldId viewId metaKey : String)
    (nv : JsValue) (s s' : DbState)
    (h : setColumnMetaOne version fieldId viewId metaKey nv s = .ok s') :
    s'.ops = s.ops := by
  unfold setColumnMetaOne at h
  split at h
  · cases h
  · split at h
    · cases h
    · cases h; rfl

theorem addColumnMetaOne_ops (version : Nat) (fieldId viewId : String)
    (nv : List (String × JsValue)) (s s' : DbState)
    (h : addColumnMetaOne version fieldId viewId nv s = .ok s') :
    s'.ops = s.ops := by
  unfold addColumnMetaOne at h
  split at h
  · cases h
  · split at h
    · cases h; rfl
    · split at h
      · cases h
      · cases h; rfl

theorem applyGroup_ops (version : Nat) (docId dbTableName : String)
    (ctxs : List OpContext) (opName : String) (s s' : DbState)
    (h : applyGroup version docId dbTableName ctxs opName s = .ok s') :
    s'.ops = s.ops := by
  unfold applyGroup at h
  split at h
  · exact eachCtx_ops _ (fun c s1 s2 hc => by cases hc; rfl) _ s s' h
  · split at h
    · unfold setRecords recordSetRecord at h; cases h; rfl
    · split at h
      · exact eachCtx_ops _
          (fun c s1 s2 hc => setColumnMetaOne_ops version docId c.1 c.2.1 c.2.2 s1 s2 hc)
          _ s s' h
      · split at h
        · exact eachCtx_ops _
            (fun c s1 s2 hc => addColumnMetaOne_ops version docId c.1 c.2 s1 s2 hc)
            _ s s' h
        · split at h
          · exact eachCtx_ops _ (fun c s1 s2 hc => by cases hc; rfl) _ s s' h
          · cases h

theorem updateSnapshot_ops (version : Nat) (collection docId : String)
    (ops : List OpContext) (s s' : DbState)
    (h : updateSnapshot version collection docId ops s = .ok s') :
    s'.ops = s.ops := by
  unfold updateSnapshot at h
  exact eachCtx_ops _
    (fun n s1 s2 hn => applyGroup_ops version docId (getDbTableName collection) ops n s1 s2 hn)
    _ s s' h

theorem addTable_ops (tid tname : String) (s s' : DbState)
    (h : addTable tid tname s = .ok s') : s'.ops = s.ops := by
  unfold addTable at h
  split at h
  · cases h
  · cases h; rfl

theorem addField_ops (tableId fid fname ftype : String) (fopts : Option String)
    (meta : ColumnMeta) (s s' : DbState)
    (h : addField tableId fid fname ftype fopts meta s = .ok s') : s'.ops = s.ops := by
  unfold addField at h
  split at h
  · cases h
  · cases h; rfl

theorem addView_ops (tableId vid vname vtype : String) (vdesc : Option String)
    (vf vsort vgroup vopts : Option String) (vord : Int) (s s' : DbState)
    (h : addView tableId vid vname vtype vdesc vf vsort vgroup vopts vord s = .ok s') :
    s'.ops = s.ops := by
  unfold addView at h
  split at h
  · cases h
  · cases h; rfl

theorem addRecord_ops (tableId recordId : String) (s s' : DbState)
    (h : addRecord tableId recordId s = .ok s') : s'.ops = s.ops := by
  unfold addRecord at h
  split at h
  · cases h
  · cases h; rfl

theorem createSnapshot_ops (collection docId : String) (payload : SnapshotPayload)
    (s s' : DbState) (h : createSnapshot collection docId payload s = .ok s') :
    s'.ops = s.ops := by
  unfold createSnapshot at h
  split at h
  · split at h
    · exact addTable_ops _ _ _ _ h
    · cases h
  · split at h
    · exact addRecord_ops _ _ _ _ h
    · split at h
      · split at h
        · exact addField_ops _ _ _ _ _ _ _ _ h
        · cases h
      · split at h
        · split at h
          · exact addView_ops _ _ _ _ _ _ _ _ _ _ _ _ h
          · cases h
        · cases h; rfl

theorem commitApply_ops (collection id : String) (rawOp : RawOp) (snapshotV : Nat)
    (s1 s' : DbState) (h : commitApply collection id rawOp snapshotV s1 = .ok s') :
    s'.ops = s1.ops := by
  unfold commitApply at h
  cases hc : rawOp.create with
  | some c =>
    rw [hc] at h
    simp only at h
    cases hcr : createSnapshot collection id c.data s1 with
    | error e => rw [hcr] at h; cases h
    | ok s2 =>
      rw [hcr] at h
      have h2 := createSnapshot_ops collection id c.data s1 s2 hcr
      cases ho : rawOp.op with
      | some ops =>
        rw [ho] at h
        rw [updateSnapshot_ops snapshotV collection id ops s2 s' h, h2]
      | none => rw [ho] at h; cases h; exact h2
  | none =>
    rw [hc] at h
    simp only at h
    cases ho : rawOp.op with
    | some ops =>
      rw [ho] at h
      exact updateSnapshot_ops snapshotV collection id ops s1 s' h
    | none => rw [ho] at h; cases h; rfl

/-- Sample delete operation (`DeleteOp`). -/
def delOpSample : RawOp := { create := none, del := true, op := none }

/-- Sample record-create operation (`CreateOp`). -/
def recCreateOpSample : RawOp :=
  { create := some { type := some "json0", data := .raw .null }, del := false, op := none }

/-- C1: a commit whose `snapshot.v` differs from `maxLoggedVersion + 1`
returns the version-mismatch error and leaves the operation log and all
document state unchanged (the returned state is exactly the input state — no
partial writes); a commit with `snapshot.v = maxLoggedVersion + 1` whose
callback receives no error appends the operation to the log at exactly that
version. -/
theorem c1_commit_version_gate (collection id : String) (rawOp : RawOp)
    (snapshotV : Nat) (s : DbState) :
    (snapshotV ≠ maxLoggedVersion s collection id + 1 →
      commit collection id rawOp snapshotV s =
        (some ("version mismatch: maxVersion: " ++ toString (maxLoggedVersion s collection id) ++
          " snapshotV: " ++ toString snapshotV), s))
    ∧ (snapshotV = maxLoggedVersion s collection id + 1 →
      (commit collection id rawOp snapshotV s).1 = none →
      ((commit collection id rawOp snapshotV s).2).ops =
        s.ops ++ [⟨id, collection, snapshotV, rawOp⟩]) := by
  constructor
  · intro h
    unfold commit
    rw [if_pos h]
  · intro hv hnone
    unfold commit at hnone ⊢
    rw [if_neg (fun hne => hne hv)] at hnone ⊢
    cases hres : commitApply collection id rawOp snapshotV
        { s with ops := s.ops ++ [⟨id, collection, snapshotV, rawOp⟩] } with
    | error e =>
      rw [hres] at hnone
      simp at hnone
    | ok s3 => exact commitApply_ops collection id rawOp snapshotV _ s3 hres

/-- Concrete instantiation of `c1_commit_version_gate`: a stale delete at
declared version 5 over an empty log yields the exact conflict error with an
untouched state, and a fresh record create at version 1 appends exactly its
op-log row. -/
theorem c1_commit_version_gate_witness :
    (commit "tbl1" "recA01" delOpSample 5 emptyState =
      (some "version mismatch: maxVersion: 0 snapshotV: 5", emptyState))
    ∧ ((commit "tbl1" "recA01" recCreateOpSample 1 emptyState).2).ops =
      emptyState.ops ++ [⟨"recA01", "tbl1", 1, recCreateOpSample⟩] := by
  constructor
  · exact (c1_commit_version_gate "tbl1" "recA01" delOpSample 5 emptyState).1 (by decide)
  · exact (c1_commit_version_gate "tbl1" "recA01" recCreateOpSample 1 emptyState).2 rfl rfl

/-- C10: calling `getSnapshotBulk` with an empty id list never returns an
empty snapshot list — `ids[0].slice(0, 3)` throws before any emptiness check,
so the call always errors; the bulk-read interface has an unstated non-empty
precondition. -/
theorem c10_empty_ids_error (rowCountFn : String → Option String → Nat) (s : DbState)
    (collection : String) (projection : Option IProjection) :
    getSnapshotBulk rowCountFn s collection [] projection =
      .error "TypeError: Cannot read properties of undefined" := rfl

/-- C7: `skipPoll` (`true` meaning "no effect") never reports "no effect" for
a create or delete operation, and reports "no effect" for an edit only when
the edit carries no mutation descriptors at all. -/
theorem c7_skip_poll_conservative (collection docId : String) (op : RawOp) :
    ((op.create.isSome = true ∨ op.del = true) → skipPoll collection docId op = false)
    ∧ (skipPoll collection docId op = true → op.op.getD [] = []) := by
  constructor
  · intro h
    unfold skipPoll
    rcases h with h | h
    · simp [h]
    · simp [h]
  · intro h
    unfold skipPoll at h
    split at h
    · cases h
    · cases hop : op.op
      · rfl
      · rw [hop] at h; simp at h

/-- Concrete instantiation of `c7_skip_poll_conservative`: a create op never
skips polling, and a skipping edit carries no descriptors. -/
theorem c7_skip_poll_conservative_witness :
    skipPoll "tbl1" "recA01" recCreateOpSample = false
    ∧ ({ create := none, del := false, op := none } : RawOp).op.getD [] = [] :=
  ⟨(c7_skip_poll_conservative "tbl1" "recA01" recCreateOpSample).1 (Or.inl rfl),
   (c7_skip_poll_conservative "tbl1" "recA01"
     { create := none, del := false, op := none }).2 rfl⟩

/-- C8: a record bulk read whose projection object carries a truthy `$submit`
key is served with no projection at all, identically to passing no projection;
any other projection value passes through the `$submit` guard unchanged. -/
theorem c8_submit_projection_bypass (rowCountFn : String → Option String → Nat)
    (s : DbState) (collection : String) (ids : List String) (p : IProjection) :
    ((lookupKey p "$submit").getD false = true →
      getSnapshotBulk rowCountFn s collection ids (some p) =
        getSnapshotBulk rowCountFn s collection ids none)
    ∧ (∀ projection : Option IProjection,
        (∀ q, projection = some q → (lookupKey q "$submit").getD false = false) →
        submitProjection projection = projection) := by
  constructor
  · intro h
    have hsub : submitProjection (some p) = submitProjection none := by
      simp [submitProjection, h]
    cases ids with
    | nil => rfl
    | cons id0 rest =>
      have hfam2 : ∀ docType, familySnapshotData rowCountFn s collection (id0 :: rest)
          (some p) docType = familySnapshotData rowCountFn s collection (id0 :: rest)
          none docType := by
        intro docType
        unfold familySnapshotData
        rw [hsub]
      simp only [getSnapshotBulk]
      rw [hfam2]
  · intro projection hproj
    cases projection with
    | none => rfl
    | some q => simp [submitProjection, hproj q rfl]

/-- Concrete instantiation of `c8_submit_projection_bypass`: a `$submit`
projection reads like no projection, and an ordinary projection is passed
through unchanged. -/
theorem c8_submit_projection_bypass_witness :
    getSnapshotBulk (fun _ _ => 0) emptyState "tbl1" ["recA01"] (some [("$submit", true)]) =
      getSnapshotBulk (fun _ _ => 0) emptyState "tbl1" ["recA01"] none
    ∧ submitProjection (some [("fldX", true)]) = some [("fldX", true)] :=
  ⟨(c8_submit_projection_bypass (fun _ _ => 0) emptyState "tbl1" ["recA01"]
      [("$submit", true)]).1 rfl,
   (c8_submit_projection_bypass (fun _ _ => 0) emptyState "tbl1" ["recA01"]
      [("$submit", true)]).2 (some [("fldX", true)])
      (fun q hq => by cases hq; rfl)⟩

/-- C4 counterexample: committing a create operation on the unknown-prefix id
`xxxdoc1` succeeds (no error) and creates no document state whatsoever — the
op-log row is appended and every document table stays empty — refuting the
claim that an unknown identifier prefix raises an `UnknownFamily` error
rather than committing without creating any document state. -/
theorem c4_unknown_family_counterexample :
    commit "tbl1" "xxxdoc1" recCreateOpSample 1 emptyState =
      (none, { emptyState with ops := [⟨"xxxdoc1", "tbl1", 1, recCreateOpSample⟩] }) := rfl

/-- C4 (amended): the family classification derived from the 3-character id
prefix silently falls through for ids outside the four creation-handled
prefixes: `createSnapshot` performs no mutation and reports success, so a
create commit on such an id appends its op without creating document state,
and no `UnknownFamily` error exists anywhere in the adapter. -/
theorem c4_unknown_family_silent_fallthrough (collection docId : String)
    (payload : SnapshotPayload) (s : DbState)
    (h1 : docId.take 3 ≠ pfxTable) (h2 : docId.take 3 ≠ pfxRecord)
    (h3 : docId.take 3 ≠ pfxField) (h4 : docId.take 3 ≠ pfxView) :
    createSnapshot collection docId payload s = .ok s := by
  unfold createSnapshot
  rw [if_neg h1, if_neg h2, if_neg h3, if_neg h4]

/-- Concrete instantiation of `c4_unknown_family_silent_fallthrough` at the
unknown prefix `xxx`. -/
theorem c4_unknown_family_silent_fallthrough_witness :
    createSnapshot "tbl1" "xxxdoc1" (.raw .null) emptyState = .ok emptyState :=
  c4_unknown_family_silent_fallthrough "tbl1" "xxxdoc1" (.raw .null) emptyState
    (by decide) (by decide) (by decide) (by decide)

/-- Helper for C6: a non-`RowCount` aggregate key always produces the
`aggregate <key> not implemented` error (the `Average` case and the default
case of the switch throw the same message). -/
theorem aggregateOne_not_implemented (rowCountFn : String → Option String → Nat)
    (tableId aggId : String) (h : (jsSplit '_' aggId).headD "" ≠ aggKeyRowCount) :
    aggregateOne rowCountFn tableId aggId =
      .error ("aggregate " ++ (jsSplit '_' aggId).headD "" ++ " not implemented") := by
  unfold aggregateOne
  rw [if_neg h]
  split <;> rfl

/-- C6: an aggregate read whose synthetic id parses to a key other than
`RowCount` fails with an error naming the unimplemented aggregate — never a
default value — while a `RowCount` id yields the row count computed for the
parsed view id. -/
theorem c6_aggregate_dispatch (rowCountFn : String → Option String → Nat)
    (tableId aggId : String) :
    ((jsSplit '_' aggId).headD "" ≠ aggKeyRowCount →
      getAggregateBulk rowCountFn tableId [aggId] =
        .error ("aggregate " ++ (jsSplit '_' aggId).headD "" ++ " not implemented"))
    ∧ ((jsSplit '_' aggId).headD "" = aggKeyRowCount →
      getAggregateBulk rowCountFn tableId [aggId] =
        .ok [{ id := aggId, v := 1, type := "json0",
               data := .aggregate (rowCountFn tableId (jsSplit '_' aggId)[1]?) }]) := by
  constructor
  · intro h
    unfold getAggregateBulk
    rw [aggregateOne_not_implemented rowCountFn tableId aggId h]
  · intro h
    have hone : aggregateOne rowCountFn tableId aggId =
        .ok (rowCountFn tableId (jsSplit '_' aggId)[1]?) := by
      unfold aggregateOne
      rw [if_pos h]
    unfold getAggregateBulk
    rw [hone]
    rfl

/-- Concrete instantiation of `c6_aggregate_dispatch`: key `Average` errors,
key `RowCount` returns the collaborator's row count for view `viw1`. -/
theorem c6_aggregate_dispatch_witness :
    getAggregateBulk (fun _ _ => 42) "tbl1" ["Average_viw1"] =
      .error "aggregate Average not implemented"
    ∧ getAggregateBulk (fun _ _ => 42) "tbl1" ["RowCount_viw1"] =
      .ok [{ id := "RowCount_viw1", v := 1, type := "json0", data := .aggregate 42 }] :=
  ⟨(c6_aggregate_dispatch (fun _ _ => 42) "tbl1" "Average_viw1").1 (by decide),
   (c6_aggregate_dispatch (fun _ _ => 42) "tbl1" "RowCount_viw1").2 (by decide)⟩

/-!
Association-list lemmas for the nested `columnMeta` mutation.
-/

theorem lookupKey_setKey_self {β : Type} (m : List (String × β)) (k : String) (v : β) :
    lookupKey (setKey m k v) k = some v := by
  induction m with
  | nil => simp [setKey, lookupKey]
  | cons kv rest ih =>
    obtain ⟨k1, v1⟩ := kv
    by_cases hk : k1 = k
    · subst hk; simp [setKey, lookupKey]
    · simp [setKey, lookupKey, hk, ih]

theorem lookupKey_setKey_other {β : Type} (m : List (String × β)) (k k' : String) (v : β)
    (h : k' ≠ k) : lookupKey (setKey m k v) k' = lookupKey m k' := by
  induction m with
  | nil =>
    simp only [setKey, lookupKey]
    rw [if_neg (fun hh => h (hh.symm))]
  | cons kv rest ih =>
    obtain ⟨k1, v1⟩ := kv
    by_cases hk : k1 = k
    · subst hk
      simp only [setKey, if_pos rfl, lookupKey]
      rw [if_neg (fun hh => h hh.symm), if_neg (fun hh => h hh.symm)]
    · simp only [setKey, if_neg hk, lookupKey]
      by_cases hk' : k1 = k'
      · rw [if_pos hk', if_pos hk']
      · rw [if_neg hk', if_neg hk', ih]

/-- The nested leaf `meta[viewId][metaKey]` of a `columnMeta` object. -/
def metaLeaf (m : ColumnMeta) (viewId metaKey : String) : Option JsValue :=
  (lookupKey m viewId).bind (fun inner => lookupKey inner metaKey)

theorem find?_middle {α : Type} (p : α → Bool) (pre post : List α) (x : α)
    (hpre : ∀ g ∈ pre, ¬ p g) (hx : p x) :
    (pre ++ x :: post).find? p = some x := by
  induction pre with
  | nil => simp [List.find?_cons_of_pos, hx]
  | cons a rest ih =>
    have ha : ¬ p a := hpre a (by simp)
    rw [List.cons_append, List.find?_cons_of_neg _ (by simpa using ha)]
    exact ih (fun g hg => hpre g (by simp [hg]))

/-- The row written back by one `SetColumnMeta` context on a field whose
`columnMeta[viewId]` is `inner`: the single leaf replaced, the version
stamped, everything else untouched. -/
def updatedMetaRow (f : FieldRow) (viewId metaKey : String) (newVal : JsValue)
    (inner : List (String × JsValue)) (v : Nat) : FieldRow :=
  { f with
    columnMeta := setKey f.columnMeta viewId (setKey inner metaKey newVal),
    version := v }

theorem map_update_middle {α : Type} (upd : α → α) (p : α → Bool) (pre post : List α)
    (x : α) (hpre : ∀ g ∈ pre, ¬ p g) (hpost : ∀ g ∈ post, ¬ p g) (hx : p x) :
    (pre ++ x :: post).map (fun g => if p g then upd g else g) = pre ++ upd x :: post := by
  have e1 : pre.map (fun g => if p g then upd g else g) = pre := by
    have := List.map_congr_left (l := pre) (f := fun g => if p g then upd g else g)
      (g := fun g => g) (fun a ha => if_neg (hpre a ha))
    simpa using this
  have e2 : post.map (fun g => if p g then upd g else g) = post := by
    have := List.map_congr_left (l := post) (f := fun g => if p g then upd g else g)
      (g := fun g => g) (fun a ha => if_neg (hpost a ha))
    simpa using this
  rw [List.map_append, List.map_cons, if_pos hx, e1, e2]

theorem filter_middle {α : Type} (p : α → Bool) (pre post : List α) (x : α)
    (hpre : ∀ g ∈ pre, ¬ p g) (hpost : ∀ g ∈ post, ¬ p g) (hx : p x) :
    (pre ++ x :: post).filter p = [x] := by
  rw [List.filter_append, List.filter_cons_of_pos hx,
    List.filter_eq_nil_iff.mpr hpre, List.filter_eq_nil_iff.mpr hpost]
  rfl

theorem setColumnMetaOne_spec (s : DbState) (f : FieldRow) (viewId metaKey : String)
    (newVal : JsValue) (inner : List (String × JsValue)) (v : Nat)
    (hfind : s.fields.find? (fun g => g.id == f.id) = some f)
    (hview : lookupKey f.columnMeta viewId = some inner) :
    setColumnMetaOne v f.id viewId metaKey newVal s =
      .ok { s with fields := s.fields.map (fun g =>
        if g.id == f.id then
          { g with
            columnMeta := setKey f.columnMeta viewId (setKey inner metaKey newVal),
            version := v }
        else g) } := by
  unfold setColumnMetaOne
  rw [hfind]
  simp only [hview]

/-- C5: applying one `SetColumnMeta{viewId, metaKey, newMetaValue}` context at
version `v` to a field whose stored `columnMeta` has an entry for `viewId`
replaces exactly the leaf `meta[viewId][metaKey]` and stamps the field's
version to `v`; every other `(view, key)` leaf, every other field attribute
and every other field row is unchanged, and a subsequent field snapshot read
returns the updated row. -/
theorem c5_set_column_meta_frame (pre post : List FieldRow) (f : FieldRow)
    (viewId metaKey : String) (newVal : JsValue) (inner : List (String × JsValue))
    (v : Nat) (s : DbState)
    (hfields : s.fields = pre ++ f :: post)
    (hpre : ∀ g ∈ pre, g.id ≠ f.id)
    (hpost : ∀ g ∈ post, g.id ≠ f.id)
    (hview : lookupKey f.columnMeta viewId = some inner) :
    (setColumnMeta v f.id [(viewId, metaKey, newVal)] s =
      .ok { s with fields := pre ++ updatedMetaRow f viewId metaKey newVal inner v :: post })
    ∧ metaLeaf (updatedMetaRow f viewId metaKey newVal inner v).columnMeta viewId metaKey
        = some newVal
    ∧ (∀ v' k', ¬ (v' = viewId ∧ k' = metaKey) →
        metaLeaf (updatedMetaRow f viewId metaKey newVal inner v).columnMeta v' k'
          = metaLeaf f.columnMeta v' k')
    ∧ (updatedMetaRow f viewId metaKey newVal inner v).id = f.id
    ∧ (updatedMetaRow f viewId metaKey newVal inner v).tableId = f.tableId
    ∧ (updatedMetaRow f viewId metaKey newVal inner v).name = f.name
    ∧ (updatedMetaRow f viewId metaKey newVal inner v).type = f.type
    ∧ (updatedMetaRow f viewId metaKey newVal inner v).options = f.options
    ∧ (updatedMetaRow f viewId metaKey newVal inner v).version = v
    ∧ getFieldSnapshotBulk
        { s with fields := pre ++ updatedMetaRow f viewId metaKey newVal inner v :: post }
        f.tableId [f.id] =
      [{ id := f.id, v := v, type := "json0",
         data := SnapData.field (fieldRowToVo (updatedMetaRow f viewId metaKey newVal inner v))
           (updatedMetaRow f viewId metaKey newVal inner v).columnMeta }] := by
  have hpreB : ∀ g ∈ pre, ¬ ((g.id == f.id) = true) := fun g hg => by
    simp only [beq_iff_eq]
    exact hpre g hg
  have hpostB : ∀ g ∈ post, ¬ ((g.id == f.id) = true) := fun g hg => by
    simp only [beq_iff_eq]
    exact hpost g hg
  refine ⟨?_, ?_, ?_, rfl, rfl, rfl, rfl, rfl, rfl, ?_⟩
  · have hfind : s.fields.find? (fun g => g.id == f.id) = some f := by
      rw [hfields]
      exact find?_middle _ pre post f hpreB (by simp)
    have hstep := setColumnMetaOne_spec s f viewId metaKey newVal inner v hfind hview
    have hmap : s.fields.map (fun g =>
        if g.id == f.id then
          { g with
            columnMeta := setKey f.columnMeta viewId (setKey inner metaKey newVal),
            version := v }
        else g) = pre ++ updatedMetaRow f viewId metaKey newVal inner v :: post := by
      rw [hfields]
      exact map_update_middle _ _ pre post f hpreB hpostB (by simp)
    rw [hmap] at hstep
    simp [setColumnMeta, eachCtx, hstep]
  · simp [updatedMetaRow, metaLeaf, lookupKey_setKey_self]
  · intro v' k' hne
    by_cases hv' : v' = viewId
    · subst hv'
      have hk' : k' ≠ metaKey := fun hk => hne ⟨rfl, hk⟩
      simp [updatedMetaRow, metaLeaf, lookupKey_setKey_self,
        lookupKey_setKey_other _ _ _ _ hk', hview]
    · simp [updatedMetaRow, metaLeaf, lookupKey_setKey_other _ _ _ _ hv']
  · have hfilt : List.filter
        (fun g => g.tableId == f.tableId && List.contains [f.id] g.id)
        (pre ++ updatedMetaRow f viewId metaKey newVal inner v :: post)
        = [updatedMetaRow f viewId metaKey newVal inner v] := by
      apply filter_middle
      · intro g hg
        simp [hpre g hg]
      · intro g hg
        simp [hpost g hg]
      · simp [updatedMetaRow]
    unfold getFieldSnapshotBulk
    rw [hfilt]
    simp [List.insertionSort, List.orderedInsert, updatedMetaRow]

/-- Sample field row with one view entry in its `columnMeta`. -/
def fldSample : FieldRow :=
  { id := "fldA", tableId := "tbl1", name := "A", type := "singleLineText", options := none,
    version := 1, columnMeta := [("viw1", [("order", JsValue.num 0)])] }

/-- Database holding exactly `fldSample`. -/
def st5 : DbState := { emptyState with fields := [fldSample] }

/-- Concrete instantiation of `c5_set_column_meta_frame`: setting
`meta["viw1"]["width"] = 120` at version 2 writes exactly the updated row,
the new leaf reads back as 120, and the sibling leaf `"order"` is unchanged. -/
theorem c5_set_column_meta_frame_witness :
    (setColumnMeta 2 "fldA" [("viw1", "width", JsValue.num 120)] st5 =
      .ok { st5 with fields :=
        [updatedMetaRow fldSample "viw1" "width" (JsValue.num 120)
          [("order", JsValue.num 0)] 2] })
    ∧ metaLeaf (updatedMetaRow fldSample "viw1" "width" (JsValue.num 120)
        [("order", JsValue.num 0)] 2).columnMeta "viw1" "width" = some (JsValue.num 120)
    ∧ metaLeaf (updatedMetaRow fldSample "viw1" "width" (JsValue.num 120)
        [("order", JsValue.num 0)] 2).columnMeta "viw1" "order"
      = metaLeaf fldSample.columnMeta "viw1" "order" := by
  have h := c5_set_column_meta_frame [] [] fldSample "viw1" "width" (JsValue.num 120)
    [("order", JsValue.num 0)] 2 st5 rfl (by simp) (by simp) rfl
  exact ⟨h.1, h.2.1, h.2.2.1 "viw1" "order" (by decide)⟩

/-- View row whose `filter` column stores the empty string. -/
def viwEmptySample : ViewRow :=
  { id := "viwA", tableId := "tbl1", name := "V", type := "grid", description := none,
    filter := some "", sort := none, group := none, options := none, order := 0, version := 1 }

/-- Database holding exactly `viwEmptySample`. -/
def st9 : DbState := { emptyState with views := [viwEmptySample] }

/-- C9 counterexample: a stored blob that is the empty string does not decode
to an unset value — `JSON.parse("")` throws, so reconstructing the view
raises an error, refuting `a stored empty/absent value decodes to unset,
never an error` for the empty case. -/
theorem c9_empty_blob_counterexample :
    getViewSnapshotBulk st9 "tbl1" ["viwA"] = .error "Unexpected end of JSON input" := rfl

/-- C9 (amended): view reconstruction parses the four independently stored
configuration blobs (filter, sort, group, options) into structured form
whenever each parses, and an absent (NULL) stored value decodes to JSON null
(unset) without error; an empty-string stored value, however, raises a JSON
parse error (see the counterexample). -/
theorem c9_view_blob_parsing (view : ViewRow) (fv sv gv ov : JsValue)
    (hf : jsonParseColumn view.filter = .ok fv)
    (hs : jsonParseColumn view.sort = .ok sv)
    (hg : jsonParseColumn view.group = .ok gv)
    (ho : jsonParseColumn view.options = .ok ov) :
    (viewRowToSnapshot view = .ok (viewSnapshotObject view fv sv gv ov))
    ∧ jsonParseColumn none = Except.ok JsValue.null := by
  refine ⟨?_, rfl⟩
  unfold viewRowToSnapshot
  rw [hf, hs, hg, ho]

/-- View row with all four blobs absent (NULL). -/
def viwNullSample : ViewRow :=
  { id := "viwB", tableId := "tbl1", name := "W", type := "grid", description := none,
    filter := none, sort := none, group := none, options := none, order := 1, version := 3 }

/-- Concrete instantiation of `c9_view_blob_parsing`: all four blobs absent
decode to JSON null and the reconstruction succeeds. -/
theorem c9_view_blob_parsing_witness :
    viewRowToSnapshot viwNullSample =
      .ok (viewSnapshotObject viwNullSample .null .null .null .null) :=
  (c9_view_blob_parsing viwNullSample .null .null .null .null rfl rfl rfl rfl).1

/-- True when no row of any family table stores a document `(collection, x)`. -/
def absentEverywhere (s : DbState) (collection x : String) : Bool :=
  !(s.fields.any (fun f => f.tableId == collection && f.id == x))
  && !(s.views.any (fun w => w.tableId == collection && w.id == x))
  && !(s.records.any (fun r => r.id == x && r.tableId == collection))

theorem field_filter_nil (s : DbState) (collection : String) (ids : List String)
    (habs : ∀ x ∈ ids, absentEverywhere s collection x = true) :
    s.fields.filter (fun f => f.tableId == collection && List.contains ids f.id) = [] := by
  rw [List.filter_eq_nil_iff]
  intro f hf hp
  simp only [Bool.and_eq_true, beq_iff_eq, List.contains_iff_exists_mem_beq] at hp
  obtain ⟨htab, x, hx, hbeq⟩ := hp
  have hx' : f.id = x := by simpa using hbeq
  have h1 := habs x hx
  simp only [absentEverywhere, Bool.and_eq_true, Bool.not_eq_true', List.any_eq_false] at h1
  exact absurd (by simp [htab, hx'] : (f.tableId == collection && f.id == x) = true)
    (by simpa using h1.1.1 f hf)

theorem view_filter_nil (s : DbState) (collection : String) (ids : List String)
    (habs : ∀ x ∈ ids, absentEverywhere s collection x = true) :
    s.views.filter (fun w => w.tableId == collection && List.contains ids w.id) = [] := by
  rw [List.filter_eq_nil_iff]
  intro w hw hp
  simp only [Bool.and_eq_true, beq_iff_eq, List.contains_iff_exists_mem_beq] at hp
  obtain ⟨htab, x, hx, hbeq⟩ := hp
  have hx' : w.id = x := by simpa using hbeq
  have h1 := habs x hx
  simp only [absentEverywhere, Bool.and_eq_true, Bool.not_eq_true', List.any_eq_false] at h1
  exact absurd (by simp [htab, hx'] : (w.tableId == collection && w.id == x) = true)
    (by simpa using h1.1.2 w hw)

theorem getFieldSnapshotBulk_absent (s : DbState) (collection : String) (ids : List String)
    (habs : ∀ x ∈ ids, absentEverywhere s collection x = true) :
    getFieldSnapshotBulk s collection ids = [] := by
  unfold getFieldSnapshotBulk
  rw [field_filter_nil s collection ids habs]
  rfl

theorem getViewSnapshotBulk_absent (s : DbState) (collection : String) (ids : List String)
    (habs : ∀ x ∈ ids, absentEverywhere s collection x = true) :
    getViewSnapshotBulk s collection ids = .ok [] := by
  unfold getViewSnapshotBulk
  rw [view_filter_nil s collection ids habs]
  rfl

theorem getRecordSnapshotBulk_absent (s : DbState) (collection : String)
    (projection : Option IProjection) :
    ∀ ids : List String, (∀ x ∈ ids, absentEverywhere s collection x = true) →
    getRecordSnapshotBulk s collection ids projection = []
  | [], _ => rfl
  | x :: rest, habs => by
      have h1 := habs x (by simp)
      simp only [absentEverywhere, Bool.and_eq_true, Bool.not_eq_true',
        List.any_eq_false] at h1
      have hfind : s.records.find? (fun r => r.id == x && r.tableId == collection) = none := by
        rw [List.find?_eq_none]
        intro r hr
        simpa using h1.2 r hr
      unfold getRecordSnapshotBulk
      rw [List.filterMap_cons, hfind]
      exact getRecordSnapshotBulk_absent s collection projection rest
        (fun y hy => habs y (by simp [hy]))

theorem familySnapshotData_absent (rowCountFn : String → Option String → Nat)
    (s : DbState) (collection : String) (ids : List String)
    (projection : Option IProjection) (docType : String)
    (hdoc : docType = pfxField ∨ docType = pfxView ∨ docType = pfxRecord)
    (habs : ∀ x ∈ ids, absentEverywhere s collection x = true) :
    familySnapshotData rowCountFn s collection ids projection docType = .ok [] := by
  unfold familySnapshotData
  rcases hdoc with h | h | h
  · subst h
    rw [if_neg (by decide), if_pos rfl, getFieldSnapshotBulk_absent s collection ids habs]
  · subst h
    rw [if_neg (by decide), if_neg (by decide), if_pos rfl,
      getViewSnapshotBulk_absent s collection ids habs]
  · subst h
    rw [if_pos rfl, getRecordSnapshotBulk_absent s collection _ ids habs]

theorem snapshot_bulk_all_absent (rowCountFn : String → Option String → Nat)
    (s : DbState) (collection : String) (projection : Option IProjection)
    (id0 : String) (rest : List String)
    (hfam : ∀ x ∈ id0 :: rest, x.take 3 = id0.take 3)
    (hdoc : id0.take 3 = pfxField ∨ id0.take 3 = pfxView ∨ id0.take 3 = pfxRecord)
    (habs : ∀ x ∈ id0 :: rest, absentEverywhere s collection x = true) :
    getSnapshotBulk rowCountFn s collection (id0 :: rest) projection =
      .ok ((id0 :: rest).map placeholderSnapshot) := by
  simp only [getSnapshotBulk]
  have hchk : (((id0 :: rest).find? (fun x => !(x.take 3 == id0.take 3))).getD "") = "" := by
    have hnone : (id0 :: rest).find? (fun x => !(x.take 3 == id0.take 3)) = none := by
      rw [List.find?_eq_none]
      intro x hx
      simp [hfam x hx]
    rw [hnone]
    rfl
  rw [if_pos hchk,
    familySnapshotData_absent rowCountFn s collection _ projection _ hdoc habs]
  rfl

/-- C3 counterexample: in a batch mixing the existing field `fldA` with the
never-created id `fldZ`, the bulk read succeeds but returns only the existing
document's snapshot — the absent id receives no zero-version placeholder at
all, refuting the claim for mixed batches. -/
theorem c3_mixed_batch_counterexample :
    (getSnapshotBulk (fun _ _ => 0) st5 "tbl1" ["fldA", "fldZ"] none).map
      (fun l => l.map Snapshot.id) = .ok ["fldA"] := rfl

/-- C3 (amended): a never-created document id yields the zero-version,
no-data placeholder snapshot and never an error when every id of the batch is
absent — in particular always via single-id `getSnapshot` — but in a batch
mixing existing and absent ids the absent ids are omitted from the result
rather than given placeholders (see the counterexample). -/
theorem c3_absent_placeholders (rowCountFn : String → Option String → Nat) (s : DbState)
    (collection : String) (ids : List String) (projection : Option IProjection)
    (hne : ids ≠ [])
    (hfam : ∀ x ∈ ids, x.take 3 = (ids.headD "").take 3)
    (hdoc : (ids.headD "").take 3 = pfxField ∨ (ids.headD "").take 3 = pfxView
      ∨ (ids.headD "").take 3 = pfxRecord)
    (habs : ∀ x ∈ ids, absentEverywhere s collection x = true) :
    getSnapshotBulk rowCountFn s collection ids projection =
      .ok (ids.map placeholderSnapshot)
    ∧ (∀ x ∈ ids, getSnapshot rowCountFn s collection x projection =
        .ok (some (placeholderSnapshot x))) := by
  obtain ⟨id0, rest, rfl⟩ : ∃ id0 rest, ids = id0 :: rest := by
    cases ids with
    | nil => cases hne rfl
    | cons a b => exact ⟨a, b, rfl⟩
  constructor
  · exact snapshot_bulk_all_absent rowCountFn s collection projection id0 rest hfam hdoc habs
  · intro x hx
    have hx3 : x.take 3 = id0.take 3 := hfam x hx
    unfold getSnapshot
    rw [snapshot_bulk_all_absent rowCountFn s collection projection x []
      (by intro y hy; simp at hy; subst hy; rfl)
      (by rw [hx3]; exact hdoc)
      (by intro y hy; simp at hy; rw [hy]; exact habs x hx)]
    rfl

/-- Concrete instantiation of `c3_absent_placeholders`: two never-created
field ids read as placeholders in order, and one of them reads as a
placeholder through `getSnapshot`. -/
theorem c3_absent_placeholders_witness :
    getSnapshotBulk (fun _ _ => 0) emptyState "tbl1" ["fldX", "fldY"] none =
      .ok [placeholderSnapshot "fldX", placeholderSnapshot "fldY"]
    ∧ getSnapshot (fun _ _ => 0) emptyState "tbl1" "fldX" none =
      .ok (some (placeholderSnapshot "fldX")) := by
  have h := c3_absent_placeholders (fun _ _ => 0) emptyState "tbl1" ["fldX", "fldY"] none
    (by decide) (by decide) (by decide) (by decide)
  exact ⟨h.1, h.2 "fldX" (by decide)⟩

/-!
Ordering lemmas for the bulk-read comparator sort
(`.sort((a, b) => ids.indexOf(a.id) - ids.indexOf(b.id))`).
-/

theorem jsIdx_inj_on (ids : List String) (x y : String) (hx : x ∈ ids) (hy : y ∈ ids)
    (h : jsIdx ids x = jsIdx ids y) : x = y := by
  unfold jsIdx at h
  rw [if_pos hx, if_pos hy] at h
  exact (List.indexOf_inj hx hy).mp (by exact_mod_cast h)

theorem jsIdx_step (a : String) (rest : List String) (hnotin : a ∉ rest) :
    ∀ x ∈ rest, jsIdx (a :: rest) x = jsIdx rest x + 1 := by
  intro x hx
  have hax : a ≠ x := fun h => hnotin (h ▸ hx)
  unfold jsIdx
  rw [if_pos (by simp [hx]), if_pos hx, List.indexOf_cons_ne _ hax]
  push_cast
  ring

theorem pairwise_jsIdx : ∀ (ids : List String), ids.Nodup →
    ids.Pairwise (fun x y => jsIdx ids x ≤ jsIdx ids y)
  | [], _ => List.Pairwise.nil
  | a :: rest, hnd => by
      have hnotin : a ∉ rest := (List.nodup_cons.mp hnd).1
      have hndr := (List.nodup_cons.mp hnd).2
      have h0 : jsIdx (a :: rest) a = 0 := by
        unfold jsIdx
        rw [if_pos (by simp), List.indexOf_cons_self]
        rfl
      refine List.pairwise_cons.mpr ⟨?_, ?_⟩
      · intro y hy
        rw [h0, jsIdx_step a rest hnotin y hy]
        have hnn : (0 : Int) ≤ jsIdx rest y := by
          unfold jsIdx
          rw [if_pos hy]
          exact_mod_cast Nat.zero_le _
        omega
      · exact (pairwise_jsIdx rest hndr).imp_of_mem (fun {x y} hx hy hr => by
          rw [jsIdx_step a rest hnotin x hx, jsIdx_step a rest hnotin y hy]
          omega)

theorem list_eq_of_map_eq {α β : Type} (f : α → β) (S : List α)
    (hinj : ∀ x ∈ S, ∀ y ∈ S, f x = f y → x = y) :
    ∀ (m n : List α), (∀ x ∈ m, x ∈ S) → (∀ x ∈ n, x ∈ S) →
      m.map f = n.map f → m = n
  | [], [], _, _, _ => rfl
  | [], _ :: _, _, _, h => by cases h
  | _ :: _, [], _, _, h => by cases h
  | a :: m, b :: n, hm, hn, h => by
      simp only [List.map_cons, List.cons.injEq] at h
      have hab := hinj a (hm a (by simp)) b (hn b (by simp)) h.1
      rw [hab, list_eq_of_map_eq f S hinj m n (fun x hx => hm x (by simp [hx]))
        (fun x hx => hn x (by simp [hx])) h.2]

theorem sorted_by_ids_eq (ids l : List String) (hnd : ids.Nodup) (hperm : l.Perm ids)
    (hsorted : l.Pairwise (fun x y => jsIdx ids x ≤ jsIdx ids y)) : l = ids := by
  have hmemS : ∀ x ∈ l, x ∈ ids := fun x hx => hperm.mem_iff.mp hx
  have hmapperm : (l.map (fun x => jsIdx ids x)).Perm (ids.map (fun x => jsIdx ids x)) :=
    hperm.map _
  have hs1 : List.Sorted (· ≤ ·) (l.map (fun x => jsIdx ids x)) :=
    List.Pairwise.map _ (fun _ _ h => h) hsorted
  have hs2 : List.Sorted (· ≤ ·) (ids.map (fun x => jsIdx ids x)) :=
    List.Pairwise.map _ (fun _ _ h => h) (pairwise_jsIdx ids hnd)
  have heq := List.eq_of_perm_of_sorted hmapperm hs1 hs2
  exact list_eq_of_map_eq (fun x => jsIdx ids x) ids
    (fun x hx y hy h => jsIdx_inj_on ids x y hx hy h) l ids hmemS (fun x hx => hx) heq

theorem insertionSort_key_order {α : Type} (key : α → String) (ids : List String)
    (l : List α) (hnd : ids.Nodup) (hperm : (l.map key).Perm ids) :
    ((List.insertionSort (fun a b => jsIdx ids (key a) ≤ jsIdx ids (key b)) l).map key)
      = ids := by
  haveI ht : IsTotal α (fun a b => jsIdx ids (key a) ≤ jsIdx ids (key b)) :=
    ⟨fun a b => le_total _ _⟩
  haveI htr : IsTrans α (fun a b => jsIdx ids (key a) ≤ jsIdx ids (key b)) :=
    ⟨fun _ _ _ hab hbc => le_trans hab hbc⟩
  have hp := List.perm_insertionSort
    (fun a b => jsIdx ids (key a) ≤ jsIdx ids (key b)) l
  have hs := List.sorted_insertionSort
    (fun a b => jsIdx ids (key a) ≤ jsIdx ids (key b)) l
  apply sorted_by_ids_eq ids _ hnd
  · exact (hp.map key).trans hperm
  · exact (List.pairwise_map).mpr hs

theorem viewRowToSnapshot_id (view : ViewRow) (sb : SnapshotBase)
    (h : viewRowToSnapshot view = .ok sb) : sb.id = view.id := by
  unfold viewRowToSnapshot at h
  split at h
  · cases h
  · split at h
    · cases h
    · split at h
      · cases h
      · split at h
        · cases h
        · cases h; rfl

theorem mapViewRows_ids : ∀ (rows : List ViewRow) (snaps : List SnapshotBase),
    mapViewRows rows = .ok snaps → snaps.map SnapshotBase.id = rows.map ViewRow.id
  | [], snaps, h => by cases h; rfl
  | row :: rest, snaps, h => by
      unfold mapViewRows at h
      cases hr : viewRowToSnapshot row with
      | error e => rw [hr] at h; cases h
      | ok sb =>
        rw [hr] at h
        cases hrec : mapViewRows rest with
        | error e => rw [hrec] at h; cases h
        | ok tail =>
          rw [hrec] at h
          cases h
          simp [mapViewRows_ids rest tail hrec, viewRowToSnapshot_id row sb hr]

theorem getFieldSnapshotBulk_order (s : DbState) (collection : String) (ids : List String)
    (hnd : ids.Nodup) (hwf : (s.fields.map FieldRow.id).Nodup)
    (hpres : ∀ x ∈ ids, s.fields.any (fun f => f.tableId == collection && f.id == x) = true) :
    (getFieldSnapshotBulk s collection ids).map SnapshotBase.id = ids := by
  have hnd1 : ((s.fields.filter
      (fun f => f.tableId == collection && ids.contains f.id)).map FieldRow.id).Nodup :=
    List.Nodup.sublist ((List.filter_sublist s.fields).map FieldRow.id) hwf
  have hmem : ∀ x, x ∈ (s.fields.filter
      (fun f => f.tableId == collection && ids.contains f.id)).map FieldRow.id ↔ x ∈ ids := by
    intro x
    constructor
    · intro hx
      obtain ⟨f, hf, rfl⟩ := List.mem_map.mp hx
      have hp := (List.mem_filter.mp hf).2
      simp only [Bool.and_eq_true, List.contains_iff_exists_mem_beq] at hp
      obtain ⟨-, y, hy, hbeq⟩ := hp
      rwa [show f.id = y by simpa using hbeq]
    · intro hx
      obtain ⟨f, hf, hfp⟩ := List.any_eq_true.mp (hpres x hx)
      simp only [Bool.and_eq_true, beq_iff_eq] at hfp
      refine List.mem_map.mpr ⟨f, List.mem_filter.mpr ⟨hf, ?_⟩, hfp.2⟩
      simp only [Bool.and_eq_true, beq_iff_eq]
      exact ⟨hfp.1, List.contains_iff_exists_mem_beq.mpr ⟨x, hx, by simp [hfp.2]⟩⟩
  have hperm := (List.perm_ext_iff_of_nodup hnd1 hnd).mpr hmem
  unfold getFieldSnapshotBulk
  refine insertionSort_key_order SnapshotBase.id ids _ hnd ?_
  rw [List.map_map]
  exact hperm

theorem getViewSnapshotBulk_order (s : DbState) (collection : String) (ids : List String)
    (hnd : ids.Nodup) (hwf : (s.views.map ViewRow.id).Nodup)
    (hpres : ∀ x ∈ ids, s.views.any (fun w => w.tableId == collection && w.id == x) = true)
    (out : List SnapshotBase)
    (hok : getViewSnapshotBulk s collection ids = .ok out) :
    out.map SnapshotBase.id = ids := by
  have hnd1 : ((s.views.filter
      (fun w => w.tableId == collection && ids.contains w.id)).map ViewRow.id).Nodup :=
    List.Nodup.sublist ((List.filter_sublist s.views).map ViewRow.id) hwf
  have hmem : ∀ x, x ∈ (s.views.filter
      (fun w => w.tableId == collection && ids.contains w.id)).map ViewRow.id ↔ x ∈ ids := by
    intro x
    constructor
    · intro hx
      obtain ⟨w, hw, rfl⟩ := List.mem_map.mp hx
      have hp := (List.mem_filter.mp hw).2
      simp only [Bool.and_eq_true, List.contains_iff_exists_mem_beq] at hp
      obtain ⟨-, y, hy, hbeq⟩ := hp
      rwa [show w.id = y by simpa using hbeq]
    · intro hx
      obtain ⟨w, hw, hwp⟩ := List.any_eq_true.mp (hpres x hx)
      simp only [Bool.and_eq_true, beq_iff_eq] at hwp
      refine List.mem_map.mpr ⟨w, List.mem_filter.mpr ⟨hw, ?_⟩, hwp.2⟩
      simp only [Bool.and_eq_true, beq_iff_eq]
      exact ⟨hwp.1, List.contains_iff_exists_mem_beq.mpr ⟨x, hx, by simp [hwp.2]⟩⟩
  have hperm := (List.perm_ext_iff_of_nodup hnd1 hnd).mpr hmem
  unfold getViewSnapshotBulk at hok
  cases hm : mapViewRows
      (s.views.filter (fun w => w.tableId == collection && ids.contains w.id)) with
  | error e => rw [hm] at hok; cases hok
  | ok snaps =>
    rw [hm] at hok
    cases hok
    refine insertionSort_key_order SnapshotBase.id ids snaps hnd ?_
    rw [mapViewRows_ids _ snaps hm]
    exact hperm

theorem getRecordSnapshotBulk_order (s : DbState) (collection : String)
    (projection : Option IProjection) :
    ∀ ids : List String,
    (∀ x ∈ ids, s.records.any (fun r => r.id == x && r.tableId == collection) = true) →
    (getRecordSnapshotBulk s collection ids projection).map SnapshotBase.id = ids
  | [], _ => rfl
  | x :: rest, hpres => by
      have hx := hpres x (by simp)
      have hsome : (s.records.find? (fun r => r.id == x && r.tableId == collection)).isSome :=
        List.find?_isSome.mpr (List.any_eq_true.mp hx)
      obtain ⟨r, hfr⟩ := Option.isSome_iff_exists.mp hsome
      have hpr := List.find?_some hfr
      simp only [Bool.and_eq_true, beq_iff_eq] at hpr
      have hcons : getRecordSnapshotBulk s collection (x :: rest) projection =
          ({ id := r.id, v := r.version, type := "json0",
             data := .record (applyProjection projection r.fields) r.recordOrder }
            : SnapshotBase) :: getRecordSnapshotBulk s collection rest projection := by
        unfold getRecordSnapshotBulk
        exact List.filterMap_cons_some (by rw [hfr]; rfl)
      rw [hcons, List.map_cons,
        getRecordSnapshotBulk_order s collection projection rest
          (fun y hy => hpres y (by simp [hy]))]
      simp [hpr.1]

theorem getAggregateBulk_ids (rowCountFn : String → Option String → Nat)
    (tableId : String) :
    ∀ (ids : List String) (out : List SnapshotBase),
    getAggregateBulk rowCountFn tableId ids = .ok out →
    out.map SnapshotBase.id = ids
  | [], out, h => by cases h; rfl
  | aggId :: rest, out, h => by
      unfold getAggregateBulk at h
      cases ha : aggregateOne rowCountFn tableId aggId with
      | error e => rw [ha] at h; cases h
      | ok n =>
        rw [ha] at h
        cases hrec : getAggregateBulk rowCountFn tableId rest with
        | error e => rw [hrec] at h; cases h
        | ok tail =>
          rw [hrec] at h
          cases h
          simp [getAggregateBulk_ids rowCountFn tableId rest tail hrec]

/-- Primary-key well-formedness of the stored tables: ids are unique within
the `field` and `view` tables (their database primary keys). -/
def WfState (s : DbState) : Prop :=
  (s.fields.map FieldRow.id).Nodup ∧ (s.views.map ViewRow.id).Nodup

/-- Every requested id has a stored row in its own family's table (ids of
families other than field/view/record are unconstrained). -/
def allPresent (s : DbState) (collection : String) (ids : List String) : Bool :=
  ids.all (fun x =>
    if x.take 3 = pfxField then
      s.fields.any (fun f => f.tableId == collection && f.id == x)
    else if x.take 3 = pfxView then
      s.views.any (fun w => w.tableId == collection && w.id == x)
    else if x.take 3 = pfxRecord then
      s.records.any (fun r => r.id == x && r.tableId == collection)
    else true)

/-- C2: for every non-empty batch of ids sharing one family prefix (with no
duplicates, unique stored primary keys, and every id present in its family
table), a successful `getSnapshotBulk` returns its snapshots in exactly the
caller-supplied id order — whatever order storage holds the rows in — because
each family branch either builds the result in id order or sorts it with the
`ids.indexOf` comparator. -/
theorem c2_bulk_read_order (rowCountFn : String → Option String → Nat) (s : DbState)
    (collection : String) (ids : List String) (projection : Option IProjection)
    (snaps : List Snapshot)
    (hne : ids ≠ [])
    (hfam : ∀ x ∈ ids, x.take 3 = (ids.headD "").take 3)
    (hnd : ids.Nodup)
    (hwf : WfState s)
    (hpres : allPresent s collection ids = true)
    (hok : getSnapshotBulk rowCountFn s collection ids projection = .ok snaps) :
    snaps.map Snapshot.id = ids := by
  obtain ⟨id0, rest, rfl⟩ : ∃ id0 rest, ids = id0 :: rest := by
    cases ids with
    | nil => cases hne rfl
    | cons a b => exact ⟨a, b, rfl⟩
  have hfam' : ∀ x ∈ id0 :: rest, x.take 3 = id0.take 3 := by simpa using hfam
  have hpresAll := List.all_eq_true.mp hpres
  simp only [getSnapshotBulk] at hok
  have hchk : (((id0 :: rest).find? (fun x => !(x.take 3 == id0.take 3))).getD "") = "" := by
    have hnone : (id0 :: rest).find? (fun x => !(x.take 3 == id0.take 3)) = none := by
      rw [List.find?_eq_none]
      intro x hx
      simp [hfam' x hx]
    rw [hnone]
    rfl
  rw [if_pos hchk] at hok
  cases hsd : familySnapshotData rowCountFn s collection (id0 :: rest) projection
      (id0.take 3) with
  | error e => rw [hsd] at hok; cases hok
  | ok sd =>
    rw [hsd] at hok
    dsimp only at hok
    unfold familySnapshotData at hsd
    by_cases h1 : id0.take 3 = pfxRecord
    · rw [if_pos h1] at hsd
      cases hsd
      have hids : (getRecordSnapshotBulk s collection (id0 :: rest)
          (submitProjection projection)).map SnapshotBase.id = id0 :: rest := by
        apply getRecordSnapshotBulk_order
        intro x hx
        have hp := hpresAll x hx
        rw [hfam' x hx, h1, if_neg (by decide), if_neg (by decide), if_pos rfl] at hp
        exact hp
      have hnenil : (getRecordSnapshotBulk s collection (id0 :: rest)
          (submitProjection projection)).length ≠ 0 := by
        intro hl
        rw [List.length_eq_zero.mp hl] at hids
        cases hids
      rw [if_pos hnenil] at hok
      cases hok
      rw [List.map_map]
      exact hids
    · rw [if_neg h1] at hsd
      by_cases h2 : id0.take 3 = pfxField
      · rw [if_pos h2] at hsd
        cases hsd
        have hids : (getFieldSnapshotBulk s collection (id0 :: rest)).map SnapshotBase.id
            = id0 :: rest := by
          apply getFieldSnapshotBulk_order s collection _ hnd hwf.1
          intro x hx
          have hp := hpresAll x hx
          rw [hfam' x hx, h2, if_pos rfl] at hp
          exact hp
        have hnenil : (getFieldSnapshotBulk s collection (id0 :: rest)).length ≠ 0 := by
          intro hl
          rw [List.length_eq_zero.mp hl] at hids
          cases hids
        rw [if_pos hnenil] at hok
        cases hok
        rw [List.map_map]
        exact hids
      · rw [if_neg h2] at hsd
        by_cases h3 : id0.take 3 = pfxView
        · rw [if_pos h3] at hsd
          have hids : sd.map SnapshotBase.id = id0 :: rest := by
            apply getViewSnapshotBulk_order s collection _ hnd hwf.2 _ sd hsd
            intro x hx
            have hp := hpresAll x hx
            rw [hfam' x hx, h3, if_neg (by decide), if_pos rfl] at hp
            exact hp
          have hnenil : sd.length ≠ 0 := by
            intro hl
            rw [List.length_eq_zero.mp hl] at hids
            cases hids
          rw [if_pos hnenil] at hok
          cases hok
          rw [List.map_map]
          exact hids
        · rw [if_neg h3] at hsd
          by_cases h4 : id0.take 3 = pfxAggregate
          · rw [if_pos h4] at hsd
            have hids : sd.map SnapshotBase.id = id0 :: rest :=
              getAggregateBulk_ids rowCountFn collection (id0 :: rest) sd hsd
            have hnenil : sd.length ≠ 0 := by
              intro hl
              rw [List.length_eq_zero.mp hl] at hids
              cases hids
            rw [if_pos hnenil] at hok
            cases hok
            rw [List.map_map]
            exact hids
          · rw [if_neg h4] at hsd
            cases hsd
            rw [if_neg (by simp)] at hok
            cases hok
            rw [List.map_map]
            exact List.map_congr_left (fun x _ => rfl) |>.trans (List.map_id _)

/-- First sample field for the ordering witness. -/
def fldW1 : FieldRow :=
  { id := "fldW1", tableId := "tbl1", name := "W1", type := "singleLineText", options := none,
    version := 1, columnMeta := [] }

/-- Second sample field for the ordering witness. -/
def fldW2 : FieldRow :=
  { id := "fldW2", tableId := "tbl1", name := "W2", type := "singleLineText", options := none,
    version := 2, columnMeta := [] }

/-- Database storing the two witness fields in reverse of the request order. -/
def st2w : DbState := { emptyState with fields := [fldW2, fldW1] }

/-- Concrete instantiation of `c2_bulk_read_order`: storage holds
`[fldW2, fldW1]` but the bulk read of `["fldW1", "fldW2"]` returns the
snapshots in exactly the requested order. -/
theorem c2_bulk_read_order_witness :
    (getSnapshotBulk (fun _ _ => 0) st2w "tbl1" ["fldW1", "fldW2"] none).map
      (fun l => l.map Snapshot.id) = .ok ["fldW1", "fldW2"] := by
  obtain ⟨snaps, hsnaps⟩ : ∃ snaps, getSnapshotBulk (fun _ _ => 0) st2w "tbl1"
      ["fldW1", "fldW2"] none = .ok snaps := ⟨_, rfl⟩
  have h := c2_bulk_read_order (fun _ _ => 0) st2w "tbl1" ["fldW1", "fldW2"] none snaps
    (by decide) (by decide) (by decide) ⟨by decide, by decide⟩ (by decide) hsnaps
  rw [hsnaps]
  simp only [Except.map]
  rw [h]
